import Mathlib

/-!
Verification development for the RecForge recommendation engine.

The Python source is shallowly embedded:
* Python `dict` (insertion ordered) becomes an association list `List (κ × β)`
  with `alGet` / `alSet` mirroring `d.get(k)` / `d[k] = v` (an update of an
  existing key keeps its position, a new key is appended — CPython 3.7+).
* Python `float` ratings/scores become `ℚ` (every numeral appearing in the
  source and in the claims is exact in `ℚ`; no claim depends on rounding).
* Python exceptions become an explicit `PyErr` value: a function that can
  raise returns `Except PyErr _`, and a mutating method that can raise after
  partially updating `self` returns the updated state together with
  `Option PyErr` (CPython keeps the partial mutations when an exception
  propagates).
* `while` loops are run on an explicit fuel that is an exact bound on the
  number of iterations the source loop can make, so the embedding is total
  and kernel-reducible.
-/

namespace RecForge

/-- Python exception kinds raised by the embedded code. -/
inductive PyErr where
  | keyError
  | typeError
  | indexError
  | attributeError
  | zeroDivisionError
deriving DecidableEq, Repr

/-- `d.get(k)` on an insertion-ordered dict embedded as an association list. -/
def alGet {κ β : Type} [DecidableEq κ] : List (κ × β) → κ → Option β
  | [], _ => none
  | p :: rest, k => if p.1 = k then some p.2 else alGet rest k

/-- `d[k] = v`: replace in place if the key exists, else append (CPython dict
insertion-order semantics). -/
def alSet {κ β : Type} [DecidableEq κ] : List (κ × β) → κ → β → List (κ × β)
  | [], k, v => [(k, v)]
  | p :: rest, k, v => if p.1 = k then (k, v) :: rest else p :: alSet rest k v

/-- `k in d`. -/
def alContains {κ β : Type} [DecidableEq κ] (l : List (κ × β)) (k : κ) : Bool :=
  (alGet l k).isSome

/-- `src/core/user.py`: the `User` dataclass.  Only `user_id` is ever read by
the operations the claims are about (`preferences`, `demographics` and
`history` are stored but never consulted by the embedded code paths). -/
structure User where
  user_id : String
deriving DecidableEq, Repr

/-- `src/core/item.py`: the `Item` dataclass.  `tags` defaults to `None` in
the source, embedded as `Option (List String)`; `features` and `popularity`
are never read by any embedded code path. -/
structure Item where
  item_id : String
  category : String
  tags : Option (List String) := none
deriving DecidableEq, Repr

/-- `src/core/recommender.py` lines 14–34: the state owned by
`RecommendationEngine.__init__` (the three strategy objects hold only a
back-reference to this state plus their own caches, embedded separately). -/
structure Engine where
  user_store : List (String × User)
  item_store : List (String × Item)
  user_rating_store : List (String × List (String × ℚ))
  item_rating_store : List (String × List (String × ℚ))
  user_item_matrix : List (List ℚ)
  user_to_index : List (String × Nat)
  index_to_user : List String
  item_to_index : List (String × Nat)
  index_to_item : List String
deriving DecidableEq, Repr

/-- The freshly constructed engine: every container empty. -/
def emptyEngine : Engine :=
  { user_store := [], item_store := [], user_rating_store := [],
    item_rating_store := [], user_item_matrix := [], user_to_index := [],
    index_to_user := [], item_to_index := [], index_to_item := [] }

/-- `recommender.py` lines 36–55, `RecommendationEngine.add_user`: stores the
user object, assigns the next row index, appends the id to `index_to_user`,
and appends a zero row of the current item count to the matrix.  There is no
duplicate-id check anywhere in the method. -/
def add_user (e : Engine) (user_object : User) : Engine :=
  let length_of_index := e.index_to_user.length
  let number_of_items := e.index_to_item.length
  -- the source builds the new row by appending `0` `number_of_items` times
  let new_subarray : List ℚ := List.replicate number_of_items 0
  { e with
    user_store := alSet e.user_store user_object.user_id user_object,
    user_to_index := alSet e.user_to_index user_object.user_id length_of_index,
    index_to_user := e.index_to_user ++ [user_object.user_id],
    user_item_matrix := e.user_item_matrix ++ [new_subarray] }

/-- `recommender.py` lines 68–80, `RecommendationEngine.add_item`: stores the
item object, assigns the next column index, and appends a `0` to every
existing matrix row. -/
def add_item (e : Engine) (item_object : Item) : Engine :=
  let length_of_index := e.index_to_item.length
  { e with
    item_store := alSet e.item_store item_object.item_id item_object,
    item_to_index := alSet e.item_to_index item_object.item_id length_of_index,
    index_to_item := e.index_to_item ++ [item_object.item_id],
    user_item_matrix := e.user_item_matrix.map (fun subarray => subarray ++ [0]) }

/-- `recommender.py` lines 93–134, `RecommendationEngine.add_rating`.  The two
directional rating maps are updated first; only then does the method read
`self.user_to_index[user_id]` and `self.item_to_index[item_id]`, each of which
raises `KeyError` on an unknown id — after the exception the rating-map
mutations remain in place, which the second component records.  (Python's
`if user_map:` is false for a missing or empty dict; both branches then store
`{item_id: rating}`.) -/
def add_rating (e : Engine) (user_id item_id : String) (rating : ℚ) :
    Engine × Option PyErr :=
  -- update of the user-indexed rating map (lines 101–112)
  let user_map := match alGet e.user_rating_store user_id with
    | some m => if m.isEmpty then alSet [] item_id rating else alSet m item_id rating
    | none => alSet [] item_id rating
  let urs := alSet e.user_rating_store user_id user_map
  -- update of the item-indexed rating map (lines 115–126)
  let item_map := match alGet e.item_rating_store item_id with
    | some m => if m.isEmpty then alSet [] user_id rating else alSet m user_id rating
    | none => alSet [] user_id rating
  let irs := alSet e.item_rating_store item_id item_map
  let e' := { e with user_rating_store := urs, item_rating_store := irs }
  -- index lookups (lines 130–131): `dict[key]` raises KeyError when absent
  match alGet e.user_to_index user_id with
  | none => (e', some .keyError)
  | some user_index =>
    match alGet e.item_to_index item_id with
    | none => (e', some .keyError)
    | some item_index =>
      -- matrix cell write (line 134); out-of-range indexing raises IndexError
      if user_index < e.user_item_matrix.length then
        let row := (e.user_item_matrix.getD user_index [])
        if item_index < row.length then
          ({ e' with user_item_matrix :=
              e.user_item_matrix.set user_index (row.set item_index rating) }, none)
        else (e', some .indexError)
      else (e', some .indexError)

/-- `recommender.py` lines 136–150, `RecommendationEngine.get_rating`: both
lookups use `.get` with a falsy default, and the final `if rating:` means a
stored rating of exactly `0` is reported as absent. -/
def get_rating (e : Engine) (user_id item_id : String) : Option ℚ :=
  let user_ratings := (alGet e.user_rating_store user_id).getD []
  match alGet user_ratings item_id with
  | some rating => if rating = 0 then none else some rating
  | none => none

/-- `recommender.py` lines 152–159, `RecommendationEngine.get_user_vector`:
`user_to_index.get` yields `None` for an unknown id and the subsequent
`self.user_item_matrix[None]` raises `TypeError`. -/
def get_user_vector (e : Engine) (user_id : String) : Except PyErr (List ℚ) :=
  match alGet e.user_to_index user_id with
  | none => .error .typeError
  | some user_index =>
    if user_index < e.user_item_matrix.length then
      .ok (e.user_item_matrix.getD user_index [])
    else .error .indexError

/-- Column extraction loop of `get_item_vector` (lines 167–169): appends
`subarray[item_index]` for each row, raising `IndexError` at the first row
that is too short. -/
def item_column : List (List ℚ) → Nat → Except PyErr (List ℚ)
  | [], _ => .ok []
  | subarray :: rest, item_index =>
    if item_index < subarray.length then
      (item_column rest item_index).map (fun c => subarray.getD item_index 0 :: c)
    else .error .indexError

/-- `recommender.py` lines 161–172, `RecommendationEngine.get_item_vector`:
for an unknown id, `item_to_index.get` yields `None`; if the matrix has at
least one row, `subarray[None]` raises `TypeError` on the first iteration,
while with no users at all the loop body never runs and `[]` is returned. -/
def get_item_vector (e : Engine) (item_id : String) : Except PyErr (List ℚ) :=
  match alGet e.item_to_index item_id with
  | none => if e.user_item_matrix.isEmpty then .ok [] else .error .typeError
  | some item_index => item_column e.user_item_matrix item_index

/-- `recommender.py` lines 281–284, `RecommendationEngine.get_item_popularity`:
`self.item_rating_store[item_id]` raises `KeyError` for an unknown item. -/
def get_item_popularity (e : Engine) (item_id : String) : Except PyErr Nat :=
  match alGet e.item_rating_store item_id with
  | none => .error .keyError
  | some item_ratings => .ok item_ratings.length

/-! ### MinHeap (`src/data_structures/heap.py`)

The heap array is a `List α` and the element comparison `>` is a caller-side
`Bool` relation (the engine stores `(score, id)` tuples, compared the way
Python compares tuples).  The `while` loops of `_bubble_up` / `_bubble_down`
run on explicit fuel: in `_bubble_up` the index strictly decreases, so
`fuel = start index` is exact, and in `_bubble_down` the index strictly
increases below `len(heap)`, so `fuel = len(heap)` is exact. -/

/-- `heap.py` lines 54–59, `MinHeap._swap(i, j)`: `temp = heap[i];
heap[j] = heap[i]; heap[i] = temp`.  The net effect writes `heap[i]` into
slot `j` and leaves slot `i` unchanged — the value previously in slot `j`
is lost instead of being moved to slot `i`. -/
def heap_swap {α : Type} [Inhabited α] (l : List α) (i j : Nat) : List α :=
  l.set j (l.getD i default)

/-- `heap.py` lines 61–76, `MinHeap._bubble_up` (`_has_parent` is false
exactly at index 0, since `(0-1)//2 == -1` in Python). -/
def bubble_up {α : Type} [Inhabited α] (gt : α → α → Bool) :
    Nat → List α → Nat → List α
  | 0, l, _ => l
  | fuel + 1, l, index =>
    if index = 0 then l
    else
      let parent_index := (index - 1) / 2
      if gt (l.getD parent_index default) (l.getD index default) then
        bubble_up gt fuel (heap_swap l index parent_index) parent_index
      else l

/-- `heap.py` lines 78–100, `MinHeap._bubble_down`. -/
def bubble_down {α : Type} [Inhabited α] (gt : α → α → Bool) :
    Nat → List α → Nat → List α
  | 0, l, _ => l
  | fuel + 1, l, index =>
    if 2 * index + 1 < l.length then
      let smaller_child_index :=
        if 2 * index + 2 < l.length &&
            gt (l.getD (2 * index + 1) default) (l.getD (2 * index + 2) default)
        then 2 * index + 2 else 2 * index + 1
      if gt (l.getD index default) (l.getD smaller_child_index default) then
        bubble_down gt fuel (heap_swap l index smaller_child_index) smaller_child_index
      else l
    else l

/-- `heap.py` lines 111–117, `MinHeap.push`: append, then bubble up from the
last position. -/
def heap_push {α : Type} [Inhabited α] (gt : α → α → Bool) (l : List α) (item : α) :
    List α :=
  bubble_up gt l.length (l ++ [item]) l.length

/-- `heap.py` lines 119–136, `MinHeap.pop` (callers in the engine only invoke
it on a non-empty heap): save the root, move the last element to the root,
drop the duplicate tail slot, and bubble down if anything remains. -/
def heap_pop {α : Type} [Inhabited α] (gt : α → α → Bool) (l : List α) :
    α × List α :=
  let minimum_value := l.getD 0 default
  let l' := (l.set 0 (l.getD (l.length - 1) default)).dropLast
  (minimum_value, if 0 < l'.length then bubble_down gt l'.length l' 0 else l')

/-- Python `>` on `(popularity, item_id)` tuples: lexicographic. -/
def tuple_gt (x y : Nat × String) : Bool :=
  decide (y.1 < x.1) || (x.1 == y.1 && decide (y.2 < x.2))

/-- The selection loop of `get_top_k_popular_items` (`recommender.py` lines
292–309).  When the heap is full the source reads `min_heap.peek()[0]`; on an
empty full heap (`k = 0`) `peek()` is `None` and the subscript raises
`TypeError`. -/
def top_k_loop (k : Nat) :
    List (String × List (String × ℚ)) → List (Nat × String) →
    Except PyErr (List (Nat × String))
  | [], min_heap => .ok min_heap
  | (item_id, item_ratings) :: rest, min_heap =>
    let popularity := item_ratings.length
    if min_heap.length < k then
      top_k_loop k rest (heap_push tuple_gt min_heap (popularity, item_id))
    else
      match min_heap with
      | [] => .error .typeError
      | top :: _ =>
        if top.1 < popularity then
          top_k_loop k rest
            (heap_push tuple_gt (heap_pop tuple_gt min_heap).2 (popularity, item_id))
        else top_k_loop k rest min_heap

/-- The extraction loop of `get_top_k_popular_items` (lines 312–315): pop
until empty.  Each pop shortens the heap by one, so `fuel = len(heap)` is
exact. -/
def pop_all {α : Type} [Inhabited α] (gt : α → α → Bool) :
    Nat → List α → List α
  | 0, _ => []
  | fuel + 1, heap =>
    if heap.isEmpty then []
    else
      let p := heap_pop gt heap
      p.1 :: pop_all gt fuel p.2

/-- `recommender.py` lines 286–334, `RecommendationEngine.get_top_k_popular_items`:
stream every item's popularity through the bounded min-heap, pop everything
(ascending extraction), and reverse with the two-pointer loop of lines
317–331 (an in-place list reversal). -/
def get_top_k_popular_items (e : Engine) (k : Nat) : Except PyErr (List String) :=
  (top_k_loop k e.item_rating_store []).map (fun min_heap =>
    let result := (pop_all tuple_gt min_heap.length min_heap).map (fun p => p.2)
    result.reverse)

/-- Concrete store for the C1 failing input: item `"a"` rated by three users,
then item `"b"` rated by two. -/
def exTopKEngine : Engine :=
  { emptyEngine with
    item_rating_store :=
      [("a", [("u1", 5), ("u2", 5), ("u3", 5)]),
       ("b", [("u1", 4), ("u2", 4)])] }

/-! ### C5: sequences of `add_user` / `add_item` calls -/

/-- A catalog-population call: `add_user` or `add_item`. -/
inductive StoreOp where
  | addU (u : User)
  | addI (it : Item)
deriving DecidableEq, Repr

/-- Apply one catalog-population call. -/
def apply_store_op (e : Engine) : StoreOp → Engine
  | .addU u => add_user e u
  | .addI it => add_item e it

/-- Run a sequence of catalog-population calls from a given state. -/
def run_store_ops (e : Engine) : List StoreOp → Engine
  | [] => e
  | op :: rest => run_store_ops (apply_store_op e op) rest

/-- The user ids added by a sequence, in order. -/
def user_ids_of (ops : List StoreOp) : List String :=
  ops.filterMap (fun op => match op with
    | .addU u => some u.user_id
    | .addI _ => none)

/-- The item ids added by a sequence, in order. -/
def item_ids_of (ops : List StoreOp) : List String :=
  ops.filterMap (fun op => match op with
    | .addU _ => none
    | .addI it => some it.item_id)

/-- The matrix shape tracks the index lists: one row per assigned row index,
each row as long as the assigned-column-index list. -/
def shape_inv (e : Engine) : Prop :=
  e.user_item_matrix.length = e.index_to_user.length ∧
    ∀ row ∈ e.user_item_matrix, row.length = e.index_to_item.length

/-! ### C3: the derived-index build methods

`src/algorithms/content_based.py` lines 17–40 and
`src/algorithms/item_collaborative_filtering.py` lines 16–53.  Each build is
embedded as a function from the previous index contents (the mutable field
on the strategy object) and the engine to the new index contents. -/

/-- `content_based.py` lines 17–26, `ContentBasedRecommender.build_category_index`:
for each stored item, create the category bucket if missing, then append the
item id.  Nothing ever resets `self.category_index`, despite the source
comment "build is always a method from scratch". -/
def build_category_index (category_index : List (String × List String)) (e : Engine) :
    List (String × List String) :=
  e.item_store.foldl (fun idx p =>
    let idx := if alContains idx p.2.category then idx else alSet idx p.2.category []
    alSet idx p.2.category ((alGet idx p.2.category).getD [] ++ [p.1])) category_index

/-- `content_based.py` lines 28–40, `ContentBasedRecommender.build_tag_index`:
same append-only pattern per tag; `if item.tags:` skips a `None` or empty
tag list.  Nothing ever resets `self.tag_index`. -/
def build_tag_index (tag_index : List (String × List String)) (e : Engine) :
    List (String × List String) :=
  e.item_store.foldl (fun idx p =>
    match p.2.tags with
    | none => idx
    | some tags =>
      if tags.isEmpty then idx
      else
        tags.foldl (fun idx tag =>
          let idx := if alContains idx tag then idx else alSet idx tag []
          alSet idx tag ((alGet idx tag).getD [] ++ [p.1])) idx) tag_index

/-- `item_collaborative_filtering.py` lines 39–43: normalize an unordered
item pair by lexical order of the ids. -/
def pair_key (item1 item2 : String) : String × String :=
  if item1 < item2 then (item1, item2) else (item2, item1)

/-- Lines 46–51: create-or-increment the pair counter. -/
def bump_pair (cm : List ((String × String) × Nat)) (key : String × String) :
    List ((String × String) × Nat) :=
  match alGet cm key with
  | none => alSet cm key 1
  | some c => alSet cm key (c + 1)

/-- The `i < j` double loop of lines 30–51 over one user's rated-item list. -/
def pair_loop (cm : List ((String × String) × Nat)) :
    List String → List ((String × String) × Nat)
  | [] => cm
  | item1 :: rest =>
    pair_loop (rest.foldl (fun cm item2 => bump_pair cm (pair_key item1 item2)) cm) rest

/-- `item_collaborative_filtering.py` lines 16–53,
`CollaborativeFilterer.build_cooccurence_matrix`: line 19 re-initializes
`self.cooccurence_matrix = {}` before scanning, so the previous contents
(the first argument) are discarded and the result depends only on the
engine's rating store. -/
def build_cooccurence_matrix (cooc_matrix : List ((String × String) × Nat))
    (e : Engine) : List ((String × String) × Nat) :=
  let _ := cooc_matrix
  e.user_rating_store.foldl (fun cm p => pair_loop cm (p.2.map Prod.fst)) []

/-- Engine with a single Sci-Fi item for the C3 failing input. -/
def exC3Engine : Engine :=
  { emptyEngine with
    item_store := [("inception", ⟨"inception", "Sci-Fi", some ["mind-bending"]⟩)] }

/-! ### C9: `ContentBasedRecommender.extract_user_preferences`
(`src/algorithms/content_based.py` lines 42–91) -/

/-- Lines 60–72: the create-or-increment counter update used for both the
category and each tag. -/
def bump_feature (feature_map : List (String × Nat)) (f : String) :
    List (String × Nat) :=
  match alGet feature_map f with
  | none => alSet feature_map f 1
  | some c => alSet feature_map f (c + 1)

/-- The rating loop of lines 53–75: only ratings strictly greater than `4.0`
count; the item object is fetched with `get_item` (attribute access on the
`None` of an unknown item raises), the category and every tag bump a
counter (`for tag in item_object.tags` raises `TypeError` when `tags` is
`None`), and `total_items` is incremented per qualifying item. -/
def prefs_loop (e : Engine) :
    List (String × ℚ) → Nat → List (String × Nat) →
    Except PyErr (Nat × List (String × Nat))
  | [], total_items, feature_map => .ok (total_items, feature_map)
  | (item_id, rating) :: rest, total_items, feature_map =>
    if rating > 4 then
      match alGet e.item_store item_id with
      | none => .error .attributeError
      | some item_object =>
        let feature_map := bump_feature feature_map item_object.category
        match item_object.tags with
        | none => .error .typeError
        | some tags =>
          prefs_loop e rest (total_items + 1) (tags.foldl bump_feature feature_map)
    else prefs_loop e rest total_items feature_map

/-- `content_based.py` lines 42–91, `extract_user_preferences`: `None` when
the user has no (or an empty) rating map; otherwise each feature counter is
divided by the number of qualifying high-rated items. -/
def extract_user_preferences (e : Engine) (user_id : String) :
    Except PyErr (Option (List (String × ℚ))) :=
  match alGet e.user_rating_store user_id with
  | none => .ok none
  | some user_rating_map =>
    if user_rating_map.isEmpty then .ok none
    else
      (prefs_loop e user_rating_map 0 []).map (fun r =>
        some (r.2.map (fun p => (p.1, (p.2 : ℚ) / (r.1 : ℚ)))))

/-- C9 counterexample input: the single qualifying item's category `"a"` also
appears among its tags, so the feature counter for `"a"` is bumped twice for
one qualifying item. -/
def exC9Engine : Engine :=
  { emptyEngine with
    item_store := [("x", ⟨"x", "a", some ["a"]⟩)],
    user_rating_store := [("u", [("x", 5)])] }

/-- The counter a feature map holds for a key (0 when absent). -/
def cnt (feature_map : List (String × Nat)) (k : String) : Nat :=
  (alGet feature_map k).getD 0

/-- Item well-formedness from the spec's data model (`tags` is a *set* of
strings, and a tag is a feature distinct from the category): each stored
item's tag list is duplicate-free and does not repeat the category string. -/
def well_tagged (e : Engine) : Prop :=
  ∀ item_id it, alGet e.item_store item_id = some it →
    ∀ tags, it.tags = some tags → tags.Nodup ∧ it.category ∉ tags

/-- Spec scenario engine: one Sci-Fi / "mind-bending" item rated 5.0. -/
def exC9ScnEngine : Engine :=
  { emptyEngine with
    item_store := [("inception", ⟨"inception", "Sci-Fi", some ["mind-bending"]⟩)],
    user_rating_store := [("alice", [("inception", 5)])] }

/-- Threshold engine: a single rating of exactly 4.0. -/
def exC9FourEngine : Engine :=
  { emptyEngine with
    item_store := [("x", ⟨"x", "a", some []⟩)],
    user_rating_store := [("u", [("x", 4)])] }

/-! ### The missing ranking helper and the user-CF predictor -/

/-- Descending order on `(id, score)` tuples by the second element. -/
def desc_by_snd (a b : String × ℚ) : Prop := b.2 ≤ a.2

instance : DecidableRel desc_by_snd :=
  fun a b => inferInstanceAs (Decidable (b.2 ≤ a.2))

instance : IsTotal (String × ℚ) desc_by_snd :=
  ⟨fun a b => le_total b.2 a.2⟩

instance : IsTrans (String × ℚ) desc_by_snd :=
  ⟨fun _ _ _ h1 h2 => le_trans h2 h1⟩

/-- Modelled from the spec: `bubble_sort_list_with_tuples_second_element`,
imported by `user_collaborative_filtering.py` (line 7) and `hybrid.py`
(line 4) from `utils/sorting.py`, is defined nowhere in the source (claim
C10 records this).  The spec fixes only the resulting order — the ranking
step "sorts the list descending by the tuple's second element (the score)",
and section 1 makes the sorting algorithm itself explicitly out of contract
— so the missing helper is modelled as a sort achieving that order. -/
def bubble_sort_list_with_tuples_second_element (l : List (String × ℚ)) :
    List (String × ℚ) :=
  List.insertionSort desc_by_snd l

/-- The mutable state of `UserCollaborativeFiltering`
(`user_collaborative_filtering.py` lines 12–15): the neighbourhood cache. -/
structure UCFState where
  user_neighbourhoods : List (String × List (String × ℚ))
deriving DecidableEq, Repr

/-- `user_collaborative_filtering.py` lines 92–131, `get_user_neighborhood`:
a cache hit returns the cached list truncated to `k`; a cache miss scores
every other user in the store and sorts descending.  The cache-miss path
calls `engine.get_user_similarity` (`recommender.py` lines 219–261), a
cosine similarity whose `math.sqrt` has no exact embedding in `ℚ`, so the
similarity function is taken as an explicit oracle parameter `sim`; the
theorems below are quantified over it. -/
def get_user_neighborhood (ucf : UCFState) (e : Engine)
    (sim : String → String → ℚ) (user_id : String) (k : Nat) :
    List (String × ℚ) :=
  match alGet ucf.user_neighbourhoods user_id with
  | some neighbours => neighbours.take k
  | none =>
    let similarities := (e.user_store.map Prod.fst).filterMap (fun other_user_id =>
      if user_id = other_user_id then none
      else some (other_user_id, sim user_id other_user_id))
    (bubble_sort_list_with_tuples_second_element similarities).take k

/-- Lines 147–156 of `predict_rating`: the neighbours who rated the item.
The source appends to two parallel lists (`neighbor_ratings`,
`similarity_weights`); the embedded list of pairs holds the same entries in
the same order.  `if neighbour_rating:` is exactly `get_rating ≠ None`
(a stored 0 already reads back as `None`). -/
def rated_neighbor_pairs (e : Engine) (neighbourhood : List (String × ℚ))
    (item_id : String) : List (ℚ × ℚ) :=
  neighbourhood.filterMap (fun p =>
    match get_rating e p.1 item_id with
    | some r => some (r, p.2)
    | none => none)

/-- `user_collaborative_filtering.py` lines 133–176, `predict_rating`:
`None` when no neighbour rated the item; otherwise
`weighted_sum / total_similarity` with no guard — when the contributing
similarities sum to zero, Python raises `ZeroDivisionError`. -/
def predict_rating (ucf : UCFState) (e : Engine) (sim : String → String → ℚ)
    (user_id item_id : String) (k : Nat) : Except PyErr (Option ℚ) :=
  let neighbourhood := get_user_neighborhood ucf e sim user_id k
  let pairs := rated_neighbor_pairs e neighbourhood item_id
  if pairs.isEmpty then .ok none
  else
    let weighted_sum := pairs.foldl (fun s p => s + p.1 * p.2) 0
    let total_similarity := pairs.foldl (fun s p => s + p.2) 0
    if total_similarity = 0 then .error .zeroDivisionError
    else .ok (some (weighted_sum / total_similarity))

/-- C7 counterexample state: user `"v"` is cached as `"u"`'s lone neighbour
with similarity `0.0`, and `"v"` rated item `"i"`. -/
def exC7Engine : Engine :=
  { emptyEngine with
    user_store := [("u", ⟨"u"⟩), ("v", ⟨"v"⟩)],
    user_rating_store := [("v", [("i", 5)])] }

/-- The C7 neighbourhood cache. -/
def exC7UCF : UCFState := ⟨[("u", [("v", 0)])]⟩

/-! ### C8: the hybrid fuser (`src/algorithms/hybrid.py` lines 22–125)

The source first obtains the three candidate lists by calling the three
recommenders at `2n` candidates each (lines 37–53); the fusion of lines
55–125 is embedded as a function of those three lists, the requested `n`
and the weights. -/

/-- The `{content, item_cf, user_cf}` weight map. -/
structure FusionWeights where
  content : ℚ
  item_cf : ℚ
  user_cf : ℚ
deriving DecidableEq, Repr

/-- `hybrid.py` lines 29–35: `if not weights:` installs the defaults
`{content: 0.33, item_cf: 0.34, user_cf: 0.33}` when the caller passed
`None`. -/
def resolve_weights : Option FusionWeights → FusionWeights
  | none => ⟨33 / 100, 34 / 100, 33 / 100⟩
  | some w => w

/-- The `enumerate` loops of lines 56–66: build a position dict
(`item -> 0-based rank`; for a repeated item the last index wins, as for a
Python dict). -/
def position_map_loop : List String → Nat → List (String × Nat) → List (String × Nat)
  | [], _, m => m
  | item :: rest, index, m => position_map_loop rest (index + 1) (alSet m item index)

/-- Position dict of one recommendation list. -/
def position_map (l : List String) : List (String × Nat) :=
  position_map_loop l 0 []

/-- One list's contribution to an item's combined score (lines 86–111):
`weight * (list_length - position) / list_length` when the item appears in
the list's position dict, else nothing is added. -/
def positional_term (m : List (String × Nat)) (list_length : Nat) (w : ℚ)
    (item : String) : ℚ :=
  match alGet m item with
  | some position => w * (((list_length : ℚ) - (position : ℚ)) / (list_length : ℚ))
  | none => 0

/-- `hybrid.py` lines 22–125, `get_hybrid_recommendations`, as a function of
the three candidate lists.  Python's `list(set(...))` enumerates the union
in an unspecified order; the embedding enumerates it as `dedup` of the
concatenation (the theorem below is stated so that the enumeration order of
the union never matters). -/
def get_hybrid_recommendations (content_list item_cf_list user_cf_list : List String)
    (n : Nat) (weights : Option FusionWeights) : List String :=
  let w := resolve_weights weights
  let content_based_map := position_map content_list
  let item_cf_based_map := position_map item_cf_list
  let user_cf_based_map := position_map user_cf_list
  let union_list := (content_list ++ item_cf_list ++ user_cf_list).dedup
  let combined_score_list := union_list.map (fun item =>
    (item, positional_term content_based_map content_list.length w.content item
         + positional_term item_cf_based_map item_cf_list.length w.item_cf item
         + positional_term user_cf_based_map user_cf_list.length w.user_cf item))
  let sorted := bubble_sort_list_with_tuples_second_element combined_score_list
  (sorted.map Prod.fst).take n

/-- The claim's positional score, written from the claim's own words:
`(list_length - position) / list_length` for a member, `0` for an absent
item. -/
def claimed_positional_score (l : List String) (item : String) : ℚ :=
  if item ∈ l then ((l.length : ℚ) - (l.indexOf item : ℚ)) / (l.length : ℚ) else 0

/-- The claim's combined score: `Σ weight[list] × positional_score[list]`. -/
def claimed_combined_score (content_list item_cf_list user_cf_list : List String)
    (w : FusionWeights) (item : String) : ℚ :=
  w.content * claimed_positional_score content_list item +
    w.item_cf * claimed_positional_score item_cf_list item +
    w.user_cf * claimed_positional_score user_cf_list item

/-! ### C10: unresolved imports

Python resolves `from module import name` against the module's top-level
(module-scope) bindings; the tables below list, per source file, exactly the
names bound at module scope, and the names each relevant `import` statement
requests. -/

/-- Module-scope names of `src/utils/sorting.py` (lines 3 and 38). -/
def sorting_module_names : List String :=
  ["bubble_sort_map_by_values", "bubble_sort_list_with_tuples"]

/-- Module-scope names of `src/algorithms/item_collaborative_filtering.py`
(line 8: the only class is `CollaborativeFilterer`). -/
def item_cf_module_names : List String :=
  ["CollaborativeFilterer"]

/-- Module-scope names of the remaining source files:
`heap.py`, `user.py`, `item.py`, `recommender.py`, `content_based.py`,
`user_collaborative_filtering.py`, `hybrid.py`, `matrix_ops.py`,
`evaluation.py`, `test_recommender.py`. -/
def other_module_names : List String :=
  ["MinHeap", "User", "Item", "RecommendationEngine", "ContentBasedRecommender",
   "UserCollaborativeFiltering", "HybridRecommender",
   "transpose_matrix", "rotate_matrix_clockwise", "spiral_matrix",
   "diagonal_traverse", "set_missing_to_zero", "get_sparse_representation",
   "RecommenderMetrics",
   "test_user_management", "test_item_management", "test_rating_system",
   "test_matrix_operations", "test_matrix_expansion", "test_integration",
   "run_all_tests"]

/-- Every module-scope name bound anywhere in the repository's source. -/
def all_source_module_names : List String :=
  sorting_module_names ++ item_cf_module_names ++ other_module_names

/-- Names requested from `utils.sorting` by
`user_collaborative_filtering.py` lines 6–7. -/
def user_cf_sorting_imports : List String :=
  ["bubble_sort_map_by_values", "bubble_sort_list_with_tuples_second_element"]

/-- Name requested from `utils.sorting` by `hybrid.py` line 4. -/
def hybrid_sorting_imports : List String :=
  ["bubble_sort_list_with_tuples_second_element"]

/-- Name requested from `algorithms.item_collaborative_filtering` by
`recommender.py` line 8. -/
def recommender_item_cf_imports : List String :=
  ["ItemCollaborativeFilterer"]

/-- Name requested from `algorithms.item_collaborative_filtering` by
`hybrid.py` line 5. -/
def hybrid_item_cf_imports : List String :=
  ["ItemCollaborativeFilterer"]

/-! ### Theorems -/

/-! ### Association-list dictionary lemmas -/

theorem alGet_alSet_self {κ β : Type} [DecidableEq κ] (l : List (κ × β)) (k : κ) (v : β) :
    alGet (alSet l k v) k = some v := by
  induction l with
  | nil => simp [alSet, alGet]
  | cons p rest ih =>
    by_cases h : p.1 = k <;> simp [alSet, alGet, h, ih]

theorem alGet_alSet_ne {κ β : Type} [DecidableEq κ] (l : List (κ × β)) (k k' : κ) (v : β)
    (h : k ≠ k') : alGet (alSet l k v) k' = alGet l k' := by
  induction l with
  | nil => simp [alSet, alGet, h]
  | cons p rest ih =>
    by_cases hp : p.1 = k
    · simp [alSet, alGet, hp, h]
    · simp [alSet, alGet, hp, ih]

theorem alSet_of_not_mem_keys {κ β : Type} [DecidableEq κ] (l : List (κ × β)) (k : κ) (v : β)
    (h : k ∉ l.map Prod.fst) : alSet l k v = l ++ [(k, v)] := by
  induction l with
  | nil => simp [alSet]
  | cons p rest ih =>
    simp only [List.map_cons, List.mem_cons] at h
    push_neg at h
    simp [alSet, Ne.symm h.1, ih h.2]

theorem keys_alSet_of_mem {κ β : Type} [DecidableEq κ] (l : List (κ × β)) (k : κ) (v : β)
    (h : k ∈ l.map Prod.fst) : (alSet l k v).map Prod.fst = l.map Prod.fst := by
  induction l with
  | nil => simp at h
  | cons p rest ih =>
    by_cases hp : p.1 = k
    · simp [alSet, hp]
    · simp only [List.map_cons, List.mem_cons] at h
      rcases h with h | h
      · exact absurd h.symm hp
      · simp [alSet, hp, ih h]

theorem length_alSet_of_mem {κ β : Type} [DecidableEq κ] (l : List (κ × β)) (k : κ) (v : β)
    (h : k ∈ l.map Prod.fst) : (alSet l k v).length = l.length := by
  induction l with
  | nil => simp at h
  | cons p rest ih =>
    by_cases hp : p.1 = k
    · simp [alSet, hp]
    · simp only [List.map_cons, List.mem_cons] at h
      rcases h with h | h
      · exact absurd h.symm hp
      · simp [alSet, hp, ih h]

theorem alGet_eq_none_iff {κ β : Type} [DecidableEq κ] (l : List (κ × β)) (k : κ) :
    alGet l k = none ↔ k ∉ l.map Prod.fst := by
  induction l with
  | nil => simp [alGet]
  | cons p rest ih =>
    by_cases hp : p.1 = k
    · simp [alGet, hp]
    · simp [alGet, hp, ih, Ne.symm hp]

theorem alGet_of_mem_of_nodup_keys {κ β : Type} [DecidableEq κ] (l : List (κ × β))
    (p : κ × β) (hmem : p ∈ l) (hnd : (l.map Prod.fst).Nodup) :
    alGet l p.1 = some p.2 := by
  induction l with
  | nil => simp at hmem
  | cons q rest ih =>
    simp only [List.map_cons, List.nodup_cons] at hnd
    rcases List.mem_cons.mp hmem with h | h
    · subst h
      simp [alGet]
    · have hne : q.1 ≠ p.1 := by
        intro he
        exact hnd.1 (he ▸ List.mem_map_of_mem Prod.fst h)
      simp [alGet, hne, ih h hnd.2]

/-- C1: the Bounded Top-K Selector does NOT return the k largest scores in
descending order: with capacity `k = 2` and popularities `3` (item `"a"`)
then `2` (item `"b"`), the broken `MinHeap._swap` (which duplicates a slot
instead of swapping) makes the selector return `["b", "b"]`, losing the most
popular item `"a"`; the k-largest-descending extraction required by the
claim would be `["a", "b"]`. -/
theorem c1_top_k_selector_failing_eval :
    get_top_k_popular_items exTopKEngine 2 = .ok ["b", "b"] ∧
      (["b", "b"] : List String) ≠ ["a", "b"] := by
  exact ⟨rfl, by decide⟩

/-- C2 counterexample: `add_rating` on the empty engine with the unknown ids
`"u"`, `"i"` does raise (`KeyError`), but it does NOT leave the engine state
unchanged — the user-indexed directional rating map has already been mutated
when the exception fires, so the claim's "leaves the engine state unchanged"
is false. -/
theorem c2_add_rating_counterexample :
    (add_rating emptyEngine "u" "i" 5).2 = some .keyError ∧
      (add_rating emptyEngine "u" "i" 5).1.user_rating_store ≠
        emptyEngine.user_rating_store := by
  refine ⟨rfl, ?_⟩
  intro h
  simp [add_rating, emptyEngine, alGet, alSet] at h

/-- C2 amended: when either id is unknown to the index maps, `add_rating`
fails loudly (an exception is raised) and the matrix, both id↔index maps and
the user/item stores are left unchanged — but the two directional rating maps
have already been updated (recorded by `c2_add_rating_counterexample`). -/
theorem c2_add_rating_unknown_id_amended (e : Engine) (user_id item_id : String)
    (rating : ℚ)
    (h : alGet e.user_to_index user_id = none ∨ alGet e.item_to_index item_id = none) :
    (add_rating e user_id item_id rating).2.isSome = true ∧
    (add_rating e user_id item_id rating).1.user_item_matrix = e.user_item_matrix ∧
    (add_rating e user_id item_id rating).1.user_to_index = e.user_to_index ∧
    (add_rating e user_id item_id rating).1.item_to_index = e.item_to_index ∧
    (add_rating e user_id item_id rating).1.index_to_user = e.index_to_user ∧
    (add_rating e user_id item_id rating).1.index_to_item = e.index_to_item ∧
    (add_rating e user_id item_id rating).1.user_store = e.user_store ∧
    (add_rating e user_id item_id rating).1.item_store = e.item_store := by
  rcases h with h | h
  · simp [add_rating, h]
  · cases hu : alGet e.user_to_index user_id with
    | none => simp [add_rating, hu]
    | some user_index => simp [add_rating, hu, h]

/-- Witness for `c2_add_rating_unknown_id_amended` at the empty engine. -/
theorem c2_add_rating_unknown_id_amended_witness :
    (add_rating emptyEngine "u" "i" 5).2.isSome = true ∧
    (add_rating emptyEngine "u" "i" 5).1.user_item_matrix =
      emptyEngine.user_item_matrix ∧
    (add_rating emptyEngine "u" "i" 5).1.user_to_index = emptyEngine.user_to_index ∧
    (add_rating emptyEngine "u" "i" 5).1.item_to_index = emptyEngine.item_to_index ∧
    (add_rating emptyEngine "u" "i" 5).1.index_to_user = emptyEngine.index_to_user ∧
    (add_rating emptyEngine "u" "i" 5).1.index_to_item = emptyEngine.index_to_item ∧
    (add_rating emptyEngine "u" "i" 5).1.user_store = emptyEngine.user_store ∧
    (add_rating emptyEngine "u" "i" 5).1.item_store = emptyEngine.item_store := by
  have h :=
    c2_add_rating_unknown_id_amended emptyEngine "u" "i" 5 (Or.inl rfl)
  exact h

/-- C4 counterexample: adding the same `User` object (id `"u"`) twice is not
rejected — after the second `add_user` the id's row index has been reassigned
from `0` to `1` and a second matrix row has been appended. -/
theorem c4_add_user_duplicate_counterexample :
    alGet (add_user emptyEngine ⟨"u"⟩).user_to_index "u" = some 0 ∧
    alGet (add_user (add_user emptyEngine ⟨"u"⟩) ⟨"u"⟩).user_to_index "u" = some 1 ∧
    (add_user emptyEngine ⟨"u"⟩).user_item_matrix.length = 1 ∧
    (add_user (add_user emptyEngine ⟨"u"⟩) ⟨"u"⟩).user_item_matrix.length = 2 := by
  refine ⟨rfl, rfl, rfl, rfl⟩

/-- C4 amended: `add_user` performs no duplicate check — for a user whose id
is already registered it overwrites the stored object (store size unchanged),
reassigns the id's index to the current `len(index_to_user)` (a strictly
larger, fresh index), appends the id to `index_to_user` again and appends
another matrix row. -/
theorem c4_add_user_duplicate_amended (e : Engine) (u : User)
    (h : alContains e.user_store u.user_id = true) :
    alGet (add_user e u).user_to_index u.user_id = some e.index_to_user.length ∧
    (add_user e u).user_item_matrix.length = e.user_item_matrix.length + 1 ∧
    (add_user e u).user_store.length = e.user_store.length ∧
    (add_user e u).index_to_user.length = e.index_to_user.length + 1 := by
  refine ⟨?_, ?_, ?_, ?_⟩
  · simpa [add_user] using alGet_alSet_self e.user_to_index u.user_id _
  · simp [add_user]
  · have hmem : u.user_id ∈ e.user_store.map Prod.fst := by
      by_contra hn
      have := (alGet_eq_none_iff e.user_store u.user_id).mpr hn
      simp [alContains, this] at h
    simpa [add_user] using length_alSet_of_mem e.user_store u.user_id u hmem
  · simp [add_user]

/-- Witness for `c4_add_user_duplicate_amended`: second add of user `"u"`. -/
theorem c4_add_user_duplicate_amended_witness :
    alGet (add_user (add_user emptyEngine ⟨"u"⟩) ⟨"u"⟩).user_to_index "u" =
      some (add_user emptyEngine ⟨"u"⟩).index_to_user.length ∧
    (add_user (add_user emptyEngine ⟨"u"⟩) ⟨"u"⟩).user_item_matrix.length =
      (add_user emptyEngine ⟨"u"⟩).user_item_matrix.length + 1 ∧
    (add_user (add_user emptyEngine ⟨"u"⟩) ⟨"u"⟩).user_store.length =
      (add_user emptyEngine ⟨"u"⟩).user_store.length ∧
    (add_user (add_user emptyEngine ⟨"u"⟩) ⟨"u"⟩).index_to_user.length =
      (add_user emptyEngine ⟨"u"⟩).index_to_user.length + 1 :=
  c4_add_user_duplicate_amended (add_user emptyEngine ⟨"u"⟩) ⟨"u"⟩ rfl

theorem shape_inv_add_user (e : Engine) (u : User) (h : shape_inv e) :
    shape_inv (add_user e u) := by
  obtain ⟨h1, h2⟩ := h
  constructor
  · simp [add_user, h1]
  · intro row hrow
    simp only [add_user] at hrow ⊢
    rcases List.mem_append.mp hrow with hr | hr
    · exact h2 row hr
    · simp only [List.mem_singleton] at hr
      subst hr
      simp

theorem shape_inv_add_item (e : Engine) (it : Item) (h : shape_inv e) :
    shape_inv (add_item e it) := by
  obtain ⟨h1, h2⟩ := h
  constructor
  · simp [add_item, h1]
  · intro row hrow
    simp only [add_item, List.mem_map] at hrow
    obtain ⟨r, hr, rfl⟩ := hrow
    simp [h2 r hr, add_item]

theorem shape_inv_run (ops : List StoreOp) :
    ∀ e : Engine, shape_inv e → shape_inv (run_store_ops e ops) := by
  induction ops with
  | nil => intro e h; exact h
  | cons op rest ih =>
    intro e h
    cases op with
    | addU u => exact ih _ (shape_inv_add_user e u h)
    | addI it => exact ih _ (shape_inv_add_item e it h)

theorem index_to_user_length_run (ops : List StoreOp) :
    ∀ e : Engine, (run_store_ops e ops).index_to_user.length =
      e.index_to_user.length + (user_ids_of ops).length := by
  induction ops with
  | nil => intro e; simp [run_store_ops, user_ids_of]
  | cons op rest ih =>
    intro e
    cases op with
    | addU u =>
      simp [run_store_ops, apply_store_op, ih, add_user, user_ids_of]
      omega
    | addI it =>
      simpa [run_store_ops, apply_store_op, add_item, user_ids_of] using ih (add_item e it)

theorem index_to_item_length_run (ops : List StoreOp) :
    ∀ e : Engine, (run_store_ops e ops).index_to_item.length =
      e.index_to_item.length + (item_ids_of ops).length := by
  induction ops with
  | nil => intro e; simp [run_store_ops, item_ids_of]
  | cons op rest ih =>
    intro e
    cases op with
    | addU u =>
      simpa [run_store_ops, apply_store_op, add_user, item_ids_of] using ih (add_user e u)
    | addI it =>
      simp [run_store_ops, apply_store_op, ih, add_item, item_ids_of]
      omega

theorem user_store_keys_run (ops : List StoreOp) :
    ∀ e : Engine, (e.user_store.map Prod.fst ++ user_ids_of ops).Nodup →
      (run_store_ops e ops).user_store.map Prod.fst =
        e.user_store.map Prod.fst ++ user_ids_of ops := by
  induction ops with
  | nil => intro e _; simp [run_store_ops, user_ids_of]
  | cons op rest ih =>
    intro e hnd
    cases op with
    | addU u =>
      have hids : user_ids_of (StoreOp.addU u :: rest) = u.user_id :: user_ids_of rest := by
        simp [user_ids_of]
      rw [hids] at hnd ⊢
      have hnotin : u.user_id ∉ e.user_store.map Prod.fst := by
        have hdisj := (List.nodup_append.mp hnd).2.2
        intro hmem
        exact hdisj hmem (List.mem_cons_self _ _)
      have hkeys : (add_user e u).user_store.map Prod.fst =
          e.user_store.map Prod.fst ++ [u.user_id] := by
        simp [add_user, alSet_of_not_mem_keys e.user_store u.user_id u hnotin]
      have hnd' : ((add_user e u).user_store.map Prod.fst ++ user_ids_of rest).Nodup := by
        rw [hkeys, List.append_assoc]
        simpa using hnd
      calc (run_store_ops e (StoreOp.addU u :: rest)).user_store.map Prod.fst
          = (run_store_ops (add_user e u) rest).user_store.map Prod.fst := by
            simp [run_store_ops, apply_store_op]
        _ = (add_user e u).user_store.map Prod.fst ++ user_ids_of rest := ih _ hnd'
        _ = e.user_store.map Prod.fst ++ u.user_id :: user_ids_of rest := by
            rw [hkeys, List.append_assoc]; simp
    | addI it =>
      have hids : user_ids_of (StoreOp.addI it :: rest) = user_ids_of rest := by
        simp [user_ids_of]
      rw [hids] at hnd ⊢
      have hkeys : (add_item e it).user_store = e.user_store := by simp [add_item]
      calc (run_store_ops e (StoreOp.addI it :: rest)).user_store.map Prod.fst
          = (run_store_ops (add_item e it) rest).user_store.map Prod.fst := by
            simp [run_store_ops, apply_store_op]
        _ = (add_item e it).user_store.map Prod.fst ++ user_ids_of rest := by
            refine ih _ ?_
            rw [hkeys]
            exact hnd
        _ = e.user_store.map Prod.fst ++ user_ids_of rest := by rw [hkeys]

theorem item_store_keys_run (ops : List StoreOp) :
    ∀ e : Engine, (e.item_store.map Prod.fst ++ item_ids_of ops).Nodup →
      (run_store_ops e ops).item_store.map Prod.fst =
        e.item_store.map Prod.fst ++ item_ids_of ops := by
  induction ops with
  | nil => intro e _; simp [run_store_ops, item_ids_of]
  | cons op rest ih =>
    intro e hnd
    cases op with
    | addU u =>
      have hids : item_ids_of (StoreOp.addU u :: rest) = item_ids_of rest := by
        simp [item_ids_of]
      rw [hids] at hnd ⊢
      have hkeys : (add_user e u).item_store = e.item_store := by simp [add_user]
      calc (run_store_ops e (StoreOp.addU u :: rest)).item_store.map Prod.fst
          = (run_store_ops (add_user e u) rest).item_store.map Prod.fst := by
            simp [run_store_ops, apply_store_op]
        _ = (add_user e u).item_store.map Prod.fst ++ item_ids_of rest := by
            refine ih _ ?_
            rw [hkeys]
            exact hnd
        _ = e.item_store.map Prod.fst ++ item_ids_of rest := by rw [hkeys]
    | addI it =>
      have hids : item_ids_of (StoreOp.addI it :: rest) = it.item_id :: item_ids_of rest := by
        simp [item_ids_of]
      rw [hids] at hnd ⊢
      have hnotin : it.item_id ∉ e.item_store.map Prod.fst := by
        have hdisj := (List.nodup_append.mp hnd).2.2
        intro hmem
        exact hdisj hmem (List.mem_cons_self _ _)
      have hkeys : (add_item e it).item_store.map Prod.fst =
          e.item_store.map Prod.fst ++ [it.item_id] := by
        simp [add_item, alSet_of_not_mem_keys e.item_store it.item_id it hnotin]
      have hnd' : ((add_item e it).item_store.map Prod.fst ++ item_ids_of rest).Nodup := by
        rw [hkeys, List.append_assoc]
        simpa using hnd
      calc (run_store_ops e (StoreOp.addI it :: rest)).item_store.map Prod.fst
          = (run_store_ops (add_item e it) rest).item_store.map Prod.fst := by
            simp [run_store_ops, apply_store_op]
        _ = (add_item e it).item_store.map Prod.fst ++ item_ids_of rest := ih _ hnd'
        _ = e.item_store.map Prod.fst ++ it.item_id :: item_ids_of rest := by
            rw [hkeys, List.append_assoc]; simp

/-- C5 counterexample: the sequence `add_user("u"); add_user("u")` produces a
matrix with 2 rows while only 1 user is registered, so "exactly one row per
registered user" fails for this sequence. -/
theorem c5_matrix_growth_counterexample :
    (run_store_ops emptyEngine [.addU ⟨"u"⟩, .addU ⟨"u"⟩]).user_item_matrix.length = 2 ∧
    (run_store_ops emptyEngine [.addU ⟨"u"⟩, .addU ⟨"u"⟩]).user_store.length = 1 ∧
    (run_store_ops emptyEngine [.addU ⟨"u"⟩, .addU ⟨"u"⟩]).user_item_matrix.length ≠
      (run_store_ops emptyEngine [.addU ⟨"u"⟩, .addU ⟨"u"⟩]).user_store.length := by
  refine ⟨rfl, rfl, by decide⟩

/-- C5 amended: after any sequence of `add_user`/`add_item` calls from the
empty engine, `len(matrix)` equals the number of assigned row indices
(`len(index_to_user)`) and every row's length equals `len(index_to_item)`;
these equal the number of registered users/items provided the added user ids
(resp. item ids) are pairwise distinct — with duplicate ids the matrix gains
a row/column while the store does not grow. -/
theorem c5_matrix_growth_amended (ops : List StoreOp) :
    (run_store_ops emptyEngine ops).user_item_matrix.length =
      (run_store_ops emptyEngine ops).index_to_user.length ∧
    (∀ row ∈ (run_store_ops emptyEngine ops).user_item_matrix,
      row.length = (run_store_ops emptyEngine ops).index_to_item.length) ∧
    ((user_ids_of ops).Nodup →
      (run_store_ops emptyEngine ops).user_store.length =
        (run_store_ops emptyEngine ops).user_item_matrix.length) ∧
    ((item_ids_of ops).Nodup →
      ∀ row ∈ (run_store_ops emptyEngine ops).user_item_matrix,
        row.length = (run_store_ops emptyEngine ops).item_store.length) := by
  have hshape : shape_inv (run_store_ops emptyEngine ops) :=
    shape_inv_run ops emptyEngine (by constructor <;> simp [emptyEngine])
  refine ⟨hshape.1, hshape.2, ?_, ?_⟩
  · intro hnd
    have hkeys := user_store_keys_run ops emptyEngine (by simpa [emptyEngine] using hnd)
    have hlen : (run_store_ops emptyEngine ops).user_store.length =
        (user_ids_of ops).length := by
      have := congrArg List.length hkeys
      simpa [emptyEngine] using this
    have hidx := index_to_user_length_run ops emptyEngine
    rw [hlen, hshape.1, hidx]
    simp [emptyEngine]
  · intro hnd row hrow
    have hkeys := item_store_keys_run ops emptyEngine (by simpa [emptyEngine] using hnd)
    have hlen : (run_store_ops emptyEngine ops).item_store.length =
        (item_ids_of ops).length := by
      have := congrArg List.length hkeys
      simpa [emptyEngine] using this
    have hidx := index_to_item_length_run ops emptyEngine
    rw [hlen, hshape.2 row hrow, hidx]
    simp [emptyEngine]

/-- Witness for `c5_matrix_growth_amended`: a distinct-id sequence of one
user and one item. -/
theorem c5_matrix_growth_amended_witness :
    (run_store_ops emptyEngine [.addU ⟨"a"⟩, .addI ⟨"i", "C", none⟩]).user_store.length =
      (run_store_ops emptyEngine [.addU ⟨"a"⟩, .addI ⟨"i", "C", none⟩]).user_item_matrix.length ∧
    ∀ row ∈ (run_store_ops emptyEngine [.addU ⟨"a"⟩, .addI ⟨"i", "C", none⟩]).user_item_matrix,
      row.length =
        (run_store_ops emptyEngine [.addU ⟨"a"⟩, .addI ⟨"i", "C", none⟩]).item_store.length := by
  have h := c5_matrix_growth_amended [.addU ⟨"a"⟩, .addI ⟨"i", "C", none⟩]
  exact ⟨h.2.2.1 (by decide), h.2.2.2 (by decide)⟩

/-- C6 counterexample: two store accessors crash on an unknown id instead of
returning an "absent" signal — `get_user_vector` indexes the matrix with the
`None` produced by `user_to_index.get` (`TypeError`), and
`get_item_popularity` subscripts `item_rating_store` directly (`KeyError`).
Only `get_rating` returns an absent signal. -/
theorem c6_accessor_counterexample :
    get_user_vector emptyEngine "u" = Except.error PyErr.typeError ∧
    get_item_popularity emptyEngine "i" = Except.error PyErr.keyError ∧
    get_rating emptyEngine "u" "i" = none :=
  ⟨rfl, rfl, rfl⟩

/-- C6 amended: for unknown ids, `get_rating` returns `None` without raising,
but `get_user_vector` raises `TypeError`, `get_item_vector` raises
`TypeError` whenever at least one matrix row exists (with no users it
returns `[]`), and `get_item_popularity` raises `KeyError`. -/
theorem c6_accessor_unknown_id_amended (e : Engine) (user_id item_id : String) :
    (alGet e.user_rating_store user_id = none →
      get_rating e user_id item_id = none) ∧
    (alGet e.user_to_index user_id = none →
      get_user_vector e user_id = Except.error PyErr.typeError) ∧
    (alGet e.item_to_index item_id = none → e.user_item_matrix ≠ [] →
      get_item_vector e item_id = Except.error PyErr.typeError) ∧
    (alGet e.item_rating_store item_id = none →
      get_item_popularity e item_id = Except.error PyErr.keyError) := by
  refine ⟨?_, ?_, ?_, ?_⟩
  · intro h
    simp [get_rating, h, alGet]
  · intro h
    simp [get_user_vector, h]
  · intro h hm
    simp [get_item_vector, h, List.isEmpty_iff, hm]
  · intro h
    simp [get_item_popularity, h]

/-- Witness for `c6_accessor_unknown_id_amended`: engine with one user and no
items, queried with the unknown ids `"v"` / `"i"`. -/
theorem c6_accessor_unknown_id_amended_witness :
    get_rating (add_user emptyEngine ⟨"u"⟩) "v" "i" = none ∧
    get_user_vector (add_user emptyEngine ⟨"u"⟩) "v" = Except.error PyErr.typeError ∧
    get_item_vector (add_user emptyEngine ⟨"u"⟩) "i" = Except.error PyErr.typeError ∧
    get_item_popularity (add_user emptyEngine ⟨"u"⟩) "i" = Except.error PyErr.keyError := by
  have h := c6_accessor_unknown_id_amended (add_user emptyEngine ⟨"u"⟩) "v" "i"
  exact ⟨h.1 rfl, h.2.1 rfl, h.2.2.1 rfl (by decide), h.2.2.2 rfl⟩

/-- C3: `build_category_index` and `build_tag_index` are NOT idempotent —
run twice with no intervening mutation on a store holding one Sci-Fi item,
the buckets hold the item id twice (the methods never reset their index, so
the second run appends again), contradicting the claim and the source's own
"from scratch" comment; `build_cooccurence_matrix` IS idempotent because it
alone re-initializes its state before scanning. -/
theorem c3_build_twice_failing_eval :
    build_category_index [] exC3Engine = [("Sci-Fi", ["inception"])] ∧
    build_category_index (build_category_index [] exC3Engine) exC3Engine =
      [("Sci-Fi", ["inception", "inception"])] ∧
    build_category_index (build_category_index [] exC3Engine) exC3Engine ≠
      build_category_index [] exC3Engine ∧
    build_tag_index (build_tag_index [] exC3Engine) exC3Engine ≠
      build_tag_index [] exC3Engine ∧
    ∀ (cm : List ((String × String) × Nat)) (e : Engine),
      build_cooccurence_matrix (build_cooccurence_matrix cm e) e =
        build_cooccurence_matrix cm e :=
  ⟨rfl, rfl, by decide, by decide, fun cm e => rfl⟩

/-- C9 counterexample: `extract_user_preferences` can return a weight of
`2.0`, outside `[0,1]` — one rating of `5.0` on an item whose category
string also occurs as one of its tags gives `{"a": 2/1}`. -/
theorem c9_extract_preferences_counterexample :
    extract_user_preferences exC9Engine "u" = .ok (some [("a", (2 : ℚ))]) ∧
      ¬((2 : ℚ) ≤ 1) := by
  constructor
  · norm_num [extract_user_preferences, prefs_loop, bump_feature, alGet, alSet,
      Except.map, exC9Engine, emptyEngine]
  · norm_num

theorem cnt_bump_self (fm : List (String × Nat)) (f : String) :
    cnt (bump_feature fm f) f = cnt fm f + 1 := by
  unfold bump_feature
  cases h : alGet fm f with
  | none => simp [cnt, h, alGet_alSet_self]
  | some c => simp [cnt, h, alGet_alSet_self]

theorem cnt_bump_ne (fm : List (String × Nat)) (f k : String) (h : f ≠ k) :
    cnt (bump_feature fm f) k = cnt fm k := by
  unfold bump_feature
  cases hf : alGet fm f with
  | none => simp [cnt, alGet_alSet_ne fm f k _ h]
  | some c => simp [cnt, alGet_alSet_ne fm f k _ h]

theorem keys_bump_nodup (fm : List (String × Nat)) (f : String)
    (h : (fm.map Prod.fst).Nodup) : ((bump_feature fm f).map Prod.fst).Nodup := by
  unfold bump_feature
  cases hf : alGet fm f with
  | none =>
    have hnm : f ∉ fm.map Prod.fst := (alGet_eq_none_iff fm f).mp hf
    rw [alSet_of_not_mem_keys fm f 1 hnm]
    simp only [List.map_append, List.map_cons, List.map_nil]
    exact List.nodup_append.mpr ⟨h, List.nodup_singleton f,
      fun a ha hb => by simp at hb; exact hnm (hb ▸ ha)⟩
  | some c =>
    have hm : f ∈ fm.map Prod.fst := by
      by_contra hn
      rw [(alGet_eq_none_iff fm f).mpr hn] at hf
      exact Option.noConfusion hf
    rw [keys_alSet_of_mem fm f (c + 1) hm]
    exact h

theorem mem_alSet_cases {κ β : Type} [DecidableEq κ] (l : List (κ × β)) (k : κ) (v : β) :
    ∀ q ∈ alSet l k v, q ∈ l ∨ q = (k, v) := by
  induction l with
  | nil => intro q hq; simp [alSet] at hq; exact Or.inr hq
  | cons p rest ih =>
    intro q hq
    by_cases hp : p.1 = k
    · simp only [alSet, hp, if_pos rfl] at hq
      rcases List.mem_cons.mp hq with h | h
      · exact Or.inr h
      · exact Or.inl (List.mem_cons_of_mem p h)
    · simp only [alSet, hp, if_neg hp] at hq
      rcases List.mem_cons.mp hq with h | h
      · exact Or.inl (h ▸ List.mem_cons_self p rest)
      · rcases ih q h with h' | h'
        · exact Or.inl (List.mem_cons_of_mem p h')
        · exact Or.inr h'

theorem bump_entries_pos (fm : List (String × Nat)) (f : String)
    (h : ∀ q ∈ fm, 1 ≤ q.2) : ∀ q ∈ bump_feature fm f, 1 ≤ q.2 := by
  unfold bump_feature
  cases hf : alGet fm f with
  | none =>
    intro q hq
    rcases mem_alSet_cases fm f 1 q hq with h' | h'
    · exact h q h'
    · simp [h']
  | some c =>
    intro q hq
    rcases mem_alSet_cases fm f (c + 1) q hq with h' | h'
    · exact h q h'
    · simp [h']

theorem cnt_foldl_bump (fs : List String) :
    ∀ (fm : List (String × Nat)) (k : String), fs.Nodup →
      cnt (fs.foldl bump_feature fm) k = cnt fm k + (if k ∈ fs then 1 else 0) := by
  induction fs with
  | nil => intro fm k _; simp
  | cons f rest ih =>
    intro fm k hnd
    rw [List.foldl_cons]
    rw [ih (bump_feature fm f) k (List.nodup_cons.mp hnd).2]
    by_cases hk : f = k
    · subst hk
      have : f ∉ rest := (List.nodup_cons.mp hnd).1
      simp [cnt_bump_self, this]
    · rw [cnt_bump_ne fm f k hk]
      by_cases hr : k ∈ rest
      · simp [hr, List.mem_cons, Ne.symm hk]
      · simp [hr, List.mem_cons, Ne.symm hk]

theorem keys_foldl_bump_nodup (fs : List String) :
    ∀ fm : List (String × Nat), (fm.map Prod.fst).Nodup →
      ((fs.foldl bump_feature fm).map Prod.fst).Nodup := by
  induction fs with
  | nil => intro fm h; simpa using h
  | cons f rest ih =>
    intro fm h
    rw [List.foldl_cons]
    exact ih _ (keys_bump_nodup fm f h)

theorem entries_foldl_bump_pos (fs : List String) :
    ∀ fm : List (String × Nat), (∀ q ∈ fm, 1 ≤ q.2) →
      ∀ q ∈ fs.foldl bump_feature fm, 1 ≤ q.2 := by
  induction fs with
  | nil => intro fm h; simpa using h
  | cons f rest ih =>
    intro fm h
    rw [List.foldl_cons]
    exact ih _ (bump_entries_pos fm f h)

theorem prefs_loop_bound (e : Engine) (hwt : well_tagged e) :
    ∀ (ratings : List (String × ℚ)) (total : Nat) (fm : List (String × Nat)),
      (∀ k, cnt fm k ≤ total) → (fm.map Prod.fst).Nodup → (∀ q ∈ fm, 1 ≤ q.2) →
      ∀ res, prefs_loop e ratings total fm = .ok res →
        (∀ k, cnt res.2 k ≤ res.1) ∧ (res.2.map Prod.fst).Nodup ∧
          (∀ q ∈ res.2, 1 ≤ q.2) := by
  intro ratings
  induction ratings with
  | nil =>
    intro total fm h1 h2 h3 res hres
    simp only [prefs_loop] at hres
    cases hres
    exact ⟨h1, h2, h3⟩
  | cons pr rest ih =>
    intro total fm h1 h2 h3 res hres
    obtain ⟨item_id, rating⟩ := pr
    simp only [prefs_loop] at hres
    by_cases hrat : rating > 4
    · rw [if_pos hrat] at hres
      cases hit : alGet e.item_store item_id with
      | none => rw [hit] at hres; exact absurd hres (by simp)
      | some item_object =>
        simp only [hit] at hres
        cases htags : item_object.tags with
        | none => simp [htags] at hres
        | some tags =>
          simp only [htags] at hres
          have hfs : (tags.foldl bump_feature (bump_feature fm item_object.category)) =
              (item_object.category :: tags).foldl bump_feature fm := by
            rw [List.foldl_cons]
          rw [hfs] at hres
          have hw := hwt item_id item_object hit tags htags
          have hnd : (item_object.category :: tags).Nodup :=
            List.nodup_cons.mpr ⟨hw.2, hw.1⟩
          refine ih (total + 1) _ ?_ ?_ ?_ res hres
          · intro k
            rw [cnt_foldl_bump _ fm k hnd]
            by_cases hk : k ∈ item_object.category :: tags
            · simpa [hk] using Nat.add_le_add (h1 k) (le_refl 1)
            · simpa [hk] using Nat.le_succ_of_le (h1 k)
          · exact keys_foldl_bump_nodup _ fm h2
          · exact entries_foldl_bump_pos _ fm h3
    · rw [if_neg hrat] at hres
      exact ih total fm h1 h2 h3 res hres

/-- C9 amended: the strict `> 4.0` threshold and the division by the
qualifying-item count hold as claimed — the spec scenario returns
`{"Sci-Fi": 1.0, "mind-bending": 1.0}` and a lone rating of exactly `4.0`
contributes nothing — and every returned weight lies in `[0,1]` provided
each stored item's tag list is duplicate-free and does not contain the
item's category string (without that proviso a weight can reach `2.0`, see
the counterexample). -/
theorem c9_extract_preferences_amended :
    extract_user_preferences exC9ScnEngine "alice" =
      .ok (some [("Sci-Fi", (1 : ℚ)), ("mind-bending", (1 : ℚ))]) ∧
    extract_user_preferences exC9FourEngine "u" = .ok (some []) ∧
    ∀ (e : Engine) (user_id : String) (prefs : List (String × ℚ)),
      well_tagged e →
      extract_user_preferences e user_id = .ok (some prefs) →
      ∀ p ∈ prefs, 0 ≤ p.2 ∧ p.2 ≤ 1 := by
  refine ⟨?_, ?_, ?_⟩
  · norm_num +decide [extract_user_preferences, prefs_loop, bump_feature, alGet,
      alSet, Except.map, exC9ScnEngine, emptyEngine]
  · norm_num +decide [extract_user_preferences, prefs_loop, bump_feature, alGet,
      alSet, Except.map, exC9FourEngine, emptyEngine]
  · intro e user_id prefs hwt hex p hp
    unfold extract_user_preferences at hex
    cases hm : alGet e.user_rating_store user_id with
    | none => rw [hm] at hex; exact absurd hex (by simp)
    | some user_rating_map =>
      simp only [hm] at hex
      by_cases hemp : user_rating_map.isEmpty = true
      · rw [if_pos hemp] at hex; exact absurd hex (by simp)
      · rw [if_neg hemp] at hex
        cases hpl : prefs_loop e user_rating_map 0 [] with
        | error err => rw [hpl] at hex; exact absurd hex (by simp [Except.map])
        | ok r =>
          rw [hpl] at hex
          simp only [Except.map, Except.ok.injEq, Option.some.injEq] at hex
          have hinv := prefs_loop_bound e hwt user_rating_map 0 []
            (by intro k; simp [cnt, alGet]) (by simp) (by simp) r hpl
          subst hex
          simp only [List.mem_map] at hp
          obtain ⟨q, hq, rfl⟩ := hp
          have hcq : cnt r.2 q.1 = q.2 := by
            simp [cnt, alGet_of_mem_of_nodup_keys r.2 q hq hinv.2.1]
          have hle : q.2 ≤ r.1 := hcq ▸ hinv.1 q.1
          have hpos : 1 ≤ r.1 := le_trans (hinv.2.2 q hq) hle
          constructor
          · exact div_nonneg (by positivity) (by positivity)
          · rw [div_le_one (by exact_mod_cast hpos)]
            exact_mod_cast hle

/-- Witness for `c9_extract_preferences_amended`: the bound applied to the
spec scenario's own output. -/
theorem c9_extract_preferences_amended_witness :
    (0 : ℚ) ≤ 1 ∧ (1 : ℚ) ≤ 1 := by
  have h := c9_extract_preferences_amended
  have hwt : well_tagged exC9ScnEngine := by
    intro item_id it hit tags htags
    by_cases hid : ("inception" : String) = item_id
    · simp only [exC9ScnEngine, emptyEngine, alGet, if_pos hid] at hit
      cases hit
      simp only at htags
      cases htags
      exact ⟨List.nodup_singleton _, by decide⟩
    · simp [exC9ScnEngine, emptyEngine, alGet, hid] at hit
  have hb := h.2.2 exC9ScnEngine "alice"
    [("Sci-Fi", (1 : ℚ)), ("mind-bending", (1 : ℚ))] hwt h.1
    ("Sci-Fi", (1 : ℚ)) (List.mem_cons_self _ _)
  exact hb

/-- C7 counterexample: `predict_rating` is NOT guarded against a zero total
similarity weight — with one cached neighbour of similarity `0.0` who rated
the item, it divides by zero (`ZeroDivisionError`) instead of yielding `0.0`
or "no prediction". -/
theorem c7_predict_rating_counterexample :
    predict_rating exC7UCF exC7Engine (fun _ _ => 0) "u" "i" 10 =
      .error .zeroDivisionError := by
  norm_num +decide [predict_rating, get_user_neighborhood, rated_neighbor_pairs,
    get_rating, alGet, exC7UCF, exC7Engine, emptyEngine, List.filterMap]

/-- C7 amended: matching spec §4.6 rather than §7's "guarded explicitly" —
`predict_rating` returns "no prediction" (`None`) when no neighbour rated
the item, and when some did but their similarities sum to zero it performs
an unguarded division and raises `ZeroDivisionError`. -/
theorem c7_predict_rating_amended (ucf : UCFState) (e : Engine)
    (sim : String → String → ℚ) (user_id item_id : String) (k : Nat) :
    (rated_neighbor_pairs e (get_user_neighborhood ucf e sim user_id k) item_id = [] →
      predict_rating ucf e sim user_id item_id k = .ok none) ∧
    (rated_neighbor_pairs e (get_user_neighborhood ucf e sim user_id k) item_id ≠ [] →
      (rated_neighbor_pairs e (get_user_neighborhood ucf e sim user_id k) item_id).foldl
          (fun s p => s + p.2) 0 = 0 →
      predict_rating ucf e sim user_id item_id k = .error .zeroDivisionError) := by
  constructor
  · intro h
    simp [predict_rating, h]
  · intro h hz
    rw [predict_rating]
    simp only [List.isEmpty_iff, h, if_false, hz, if_pos rfl]
    simp [h]

/-- Witness for `c7_predict_rating_amended`: the no-prediction branch on an
empty cached neighbourhood, and the zero-similarity branch on a neighbour
with similarity `0.0` and rating `3.0`. -/
theorem c7_predict_rating_amended_witness :
    predict_rating ⟨[("w", [])]⟩ exC7Engine (fun _ _ => 0) "w" "i" 10 = .ok none ∧
    predict_rating ⟨[("u", [("v", 0)])]⟩
        { emptyEngine with
          user_store := [("u", ⟨"u"⟩), ("v", ⟨"v"⟩)],
          user_rating_store := [("v", [("i", 3)])] }
        (fun _ _ => 0) "u" "i" 10 = .error .zeroDivisionError := by
  constructor
  · exact (c7_predict_rating_amended ⟨[("w", [])]⟩ exC7Engine (fun _ _ => 0) "w" "i" 10).1
      (by norm_num +decide [rated_neighbor_pairs, get_user_neighborhood, get_rating,
        alGet, exC7Engine, emptyEngine])
  · exact (c7_predict_rating_amended ⟨[("u", [("v", 0)])]⟩ _ (fun _ _ => 0) "u" "i" 10).2
      (by norm_num +decide [rated_neighbor_pairs, get_user_neighborhood, get_rating,
        alGet, emptyEngine, List.filterMap])
      (by norm_num +decide [rated_neighbor_pairs, get_user_neighborhood, get_rating,
        alGet, emptyEngine, List.filterMap])

theorem position_map_loop_get (l : List String) :
    ∀ (start : Nat) (m : List (String × Nat)) (x : String), l.Nodup →
      (∀ y ∈ l, alGet m y = none) →
      alGet (position_map_loop l start m) x =
        (if x ∈ l then some (start + l.indexOf x) else alGet m x) := by
  induction l with
  | nil => intro start m x _ _; simp [position_map_loop]
  | cons a rest ih =>
    intro start m x hnd hnone
    have hnd' := List.nodup_cons.mp hnd
    have hnone' : ∀ y ∈ rest, alGet (alSet m a start) y = none := by
      intro y hy
      have hya : a ≠ y := fun he => hnd'.1 (he ▸ hy)
      rw [alGet_alSet_ne m a y start hya]
      exact hnone y (List.mem_cons_of_mem a hy)
    rw [position_map_loop, ih (start + 1) (alSet m a start) x hnd'.2 hnone']
    by_cases hxr : x ∈ rest
    · have hxa : a ≠ x := fun he => hnd'.1 (he ▸ hxr)
      simp only [hxr, if_true, List.mem_cons, or_true, if_true]
      rw [List.indexOf_cons_ne _ (by simpa using hxa)]
      simp only [Option.some.injEq]
      omega
    · by_cases hxa : x = a
      · subst hxa
        simp [hxr, alGet_alSet_self, List.indexOf_cons_self]
      · have hnm : x ∉ a :: rest := by
          simp [List.mem_cons, hxa, hxr]
        simp only [hxr, if_false, hnm, if_false]
        exact alGet_alSet_ne m a x start (fun he => hxa he.symm)

theorem position_map_get (l : List String) (x : String) (hnd : l.Nodup) :
    alGet (position_map l) x = (if x ∈ l then some (l.indexOf x) else none) := by
  rw [position_map, position_map_loop_get l 0 [] x hnd (by intro y _; rfl)]
  simp [alGet]

theorem positional_term_eq (l : List String) (w : ℚ) (x : String) (hnd : l.Nodup) :
    positional_term (position_map l) l.length w x =
      w * claimed_positional_score l x := by
  unfold positional_term claimed_positional_score
  rw [position_map_get l x hnd]
  by_cases hx : x ∈ l
  · simp [hx]
  · simp [hx]

/-- C8: the hybrid fuser returns the first `n` ids of a ranking of the union
of the three candidate lists that is sorted descending by the claim's
combined score — `Σ weight[list] × (list_length - position)/list_length`,
an absent item contributing `0` for that list's term.  The `Nodup`
hypotheses hold for the actual inputs, which are key lists of Python
dicts. -/
theorem c8_hybrid_fusion (content_list item_cf_list user_cf_list : List String)
    (n : Nat) (weights : Option FusionWeights)
    (hc : content_list.Nodup) (hi : item_cf_list.Nodup) (hu : user_cf_list.Nodup) :
    ∃ ranking : List String,
      (∀ x, x ∈ ranking ↔ (x ∈ content_list ∨ x ∈ item_cf_list ∨ x ∈ user_cf_list)) ∧
      ranking.Nodup ∧
      ranking.Pairwise (fun a b =>
        claimed_combined_score content_list item_cf_list user_cf_list
            (resolve_weights weights) b ≤
          claimed_combined_score content_list item_cf_list user_cf_list
            (resolve_weights weights) a) ∧
      get_hybrid_recommendations content_list item_cf_list user_cf_list n weights =
        ranking.take n := by
  set w := resolve_weights weights with hw
  set union_list := (content_list ++ item_cf_list ++ user_cf_list).dedup with hun
  set scored := union_list.map (fun item =>
    (item, positional_term (position_map content_list) content_list.length w.content item
         + positional_term (position_map item_cf_list) item_cf_list.length w.item_cf item
         + positional_term (position_map user_cf_list) user_cf_list.length w.user_cf item))
    with hsc
  have hperm : (List.insertionSort desc_by_snd scored).Perm scored :=
    List.perm_insertionSort desc_by_snd scored
  have hfst : scored.map Prod.fst = union_list := by
    rw [hsc, List.map_map]
    exact List.map_id union_list
  have hmem_union : ∀ x : String,
      x ∈ union_list ↔ (x ∈ content_list ∨ x ∈ item_cf_list ∨ x ∈ user_cf_list) := by
    intro x
    rw [hun, List.mem_dedup, List.mem_append, List.mem_append]
    tauto
  have hscore : ∀ p ∈ scored, p.2 = claimed_combined_score content_list item_cf_list
      user_cf_list w p.1 := by
    intro p hp
    rw [hsc] at hp
    obtain ⟨item, _, rfl⟩ := List.mem_map.mp hp
    simp only [claimed_combined_score]
    rw [positional_term_eq content_list w.content item hc,
      positional_term_eq item_cf_list w.item_cf item hi,
      positional_term_eq user_cf_list w.user_cf item hu]
  refine ⟨(List.insertionSort desc_by_snd scored).map Prod.fst, ?_, ?_, ?_, ?_⟩
  · intro x
    rw [← hmem_union x, ← hfst]
    exact (hperm.map Prod.fst).mem_iff
  · refine ((hperm.map Prod.fst).nodup_iff).mpr ?_
    rw [hfst, hun]
    exact List.nodup_dedup _
  · have hsorted : (List.insertionSort desc_by_snd scored).Pairwise desc_by_snd :=
      List.sorted_insertionSort desc_by_snd scored
    rw [List.pairwise_map]
    refine hsorted.imp_of_mem ?_
    intro a b ha hb hab
    have ha' := hscore a (hperm.mem_iff.mp ha)
    have hb' := hscore b (hperm.mem_iff.mp hb)
    rw [← ha', ← hb']
    exact hab
  · rfl

/-- Witness for `c8_hybrid_fusion`: the spec's own fusion scenario — content
`[X, Y]`, item-CF `[Y, X]`, user-CF `[]`, weights `{0.5, 0.5, 0}`. -/
theorem c8_hybrid_fusion_witness :
    ∃ ranking : List String,
      (∀ x, x ∈ ranking ↔ (x ∈ ["X", "Y"] ∨ x ∈ ["Y", "X"] ∨ x ∈ ([] : List String))) ∧
      ranking.Nodup ∧
      ranking.Pairwise (fun a b =>
        claimed_combined_score ["X", "Y"] ["Y", "X"] []
            (resolve_weights (some ⟨1 / 2, 1 / 2, 0⟩)) b ≤
          claimed_combined_score ["X", "Y"] ["Y", "X"] []
            (resolve_weights (some ⟨1 / 2, 1 / 2, 0⟩)) a) ∧
      get_hybrid_recommendations ["X", "Y"] ["Y", "X"] [] 2 (some ⟨1 / 2, 1 / 2, 0⟩) =
        ranking.take 2 :=
  c8_hybrid_fusion ["X", "Y"] ["Y", "X"] [] 2 (some ⟨1 / 2, 1 / 2, 0⟩)
    (by decide) (by decide) (by decide)

/-- C10: the ranking helper `bubble_sort_list_with_tuples_second_element`
that `user_collaborative_filtering.py` and `hybrid.py` import is bound in no
module of the source, and the engine's import of the item-CF class requests
`ItemCollaborativeFilterer` while that module only binds
`CollaborativeFilterer` — so importing those modules (and hence every
operation that needs them: `build_user_neighbourhoods`, `find_similar_users`,
`get_user_neighborhood`, the user-CF `recommend`,
`get_hybrid_recommendations`, and the engine itself) raises `ImportError`
instead of returning a result. -/
theorem c10_unresolved_imports :
    "bubble_sort_list_with_tuples_second_element" ∈ user_cf_sorting_imports ∧
    "bubble_sort_list_with_tuples_second_element" ∈ hybrid_sorting_imports ∧
    "bubble_sort_list_with_tuples_second_element" ∉ all_source_module_names ∧
    "ItemCollaborativeFilterer" ∈ recommender_item_cf_imports ∧
    "ItemCollaborativeFilterer" ∈ hybrid_item_cf_imports ∧
    "ItemCollaborativeFilterer" ∉ item_cf_module_names ∧
    "ItemCollaborativeFilterer" ∉ all_source_module_names := by
  refine ⟨by decide, by decide, by decide, by decide, by decide, by decide, by decide⟩

end RecForge

